import Mathlib

/-!
Shallow embedding of src/shipper.py, a Python 2 log shipper that converts
log lines from files, directories and archives into newline-delimited JSON
records on standard output.

Modelling conventions:
* Python 2 byte strings are Lean `String`s.
* A JSON record is modelled as the association list of its fields
  (`Fields`); dict assignment `message['message'] = line` is `setField`.
  Serialisation by `json.dumps` followed by `print` is modelled at record
  granularity: one emitted `Fields` value per printed line.
* A readable stream is a `ByteStream`: the lines that are successfully
  read and encoded, followed by an optional terminal error
  (`StreamErr.decodeErr` for `UnicodeDecodeError`, `StreamErr.otherErr`
  for any other exception).  Lines lost after the error are not part of
  `lines`.
* The filesystem, `glob.iglob`, `os.walk`, `sys.stdin` and archive
  opening are abstracted into a `World` record of oracles, since their
  behaviour lives in the OS, not in the source under verification.
* The CPython identity comparisons in the source (`len(a) is not 2` on a
  small int, `opts.f is not '-'` on a length-1 argv string) are modelled
  as ordinary disequality, which is what they evaluate to in CPython 2:
  ints in the small-int cache and length-1 strings are interned, so `is`
  coincides with `==` for the values that can reach these checks.
* `parser.error` prints a usage message and exits with a non-zero status
  before any processing; it is modelled as `Except.error`.
-/

/-- Python `suffix in s`-style `str.endswith(suffix)`: true when `suffix`
is a suffix of `s`. -/
def pyEndsWith (s suffix : String) : Bool :=
  decide (suffix.toList <:+ s.toList)

/-- ASCII lowercasing of one byte, as Python 2 `str.lower` does in the C
locale. -/
def pyLowerChar (c : Char) : Char :=
  if 'A' ≤ c ∧ c ≤ 'Z' then Char.ofNat (c.toNat + 32) else c

/-- Python 2 `s.lower()` on a byte string: lowercase the ASCII letters. -/
def pyLower (s : String) : String :=
  String.mk (s.toList.map pyLowerChar)

/-- Python truthiness of an `optparse` string option: `None` and the empty
string are falsy, every other string is truthy. -/
def truthy : Option String → Bool
  | Option.none => false
  | Option.some s => !(s == "")

/-- Python `s.split(sep, 1)` for a one-character separator: split at the
first occurrence only, yielding one or two pieces. -/
def splitFirst (sep : Char) : List Char → List (List Char)
  | [] => [[]]
  | c :: rest =>
      if c == sep then [[], rest]
      else
        match splitFirst sep rest with
        | [one] => [c :: one]
        | pieces => (pieces.headD []).cons c :: pieces.tail

/-- String-level wrapper for `a.split(sep, 1)` as used on the positional
`key:value` arguments. -/
def splitColon1 (s : String) : List String :=
  (splitFirst ':' s.toList).map (fun l => String.mk l)

/-- Fields of a JSON record, in insertion order, as `json.dumps` receives
them from the Python dict. -/
abbrev Fields := List (String × String)

/-- Python dict assignment `m[k] = v`: replace the value at an existing
key, otherwise append the new binding. -/
def setField (m : Fields) (k v : String) : Fields :=
  if m.any (fun p => p.1 == k) then
    m.map (fun p => if p.1 == k then (k, v) else p)
  else m ++ [(k, v)]

/-- Python `dict(args)` over a list of key-value pairs: later duplicates
of a key overwrite earlier ones. -/
def dictOf (l : List (String × String)) : Fields :=
  l.foldl (fun m kv => setField m kv.1 kv.2) []

/- ## fnmatch: the glob pattern matcher used by the source

`fnmatch.fnmatch(name, pat)` on a POSIX system (where `os.path.normcase`
is the identity) anchors the translated pattern at both ends; `*` matches
any character sequence (including `/`), `?` any single character, and
`[seq]` / `[!seq]` a regex-style character class with ranges. -/

/-- Token of a compiled glob pattern. -/
inductive GlobTok
  | star
  | anyChar
  | cls (negated : Bool) (body : List Char)
  | lit (c : Char)
deriving DecidableEq, Repr

/-- Scan forward to the closing bracket of a character class, returning
the body and the remainder; `Option.none` when the class is unterminated
(in which case `fnmatch.translate` treats the opening bracket literally). -/
def scanClass : List Char → Option (List Char × List Char)
  | [] => Option.none
  | c :: rest =>
      if c == ']' then Option.some ([], rest)
      else (scanClass rest).map (fun br => (c :: br.1, br.2))

/-- Strip the optional leading negation mark of a character class,
returning the negation flag and the remaining pattern text. -/
def classNeg (s : List Char) : Bool × List Char :=
  match s with
  | '!' :: rest => (true, rest)
  | _ => (false, s)

/-- A closing bracket placed first in a class body is a literal member;
split it off so the scan below stops at the real terminator. -/
def classPre (s : List Char) : List Char × List Char :=
  match s with
  | ']' :: rest => ([']'], rest)
  | _ => ([], s)

/-- Parse a character class after its opening bracket, following
`fnmatch.translate`: a leading exclamation mark negates, a bracket right
after that (or at the very start) is a literal member. -/
def parseClass (s : List Char) : Option (Bool × List Char × List Char) :=
  let n := classNeg s
  let p := classPre n.2
  (scanClass p.2).map (fun br => (n.1, p.1 ++ br.1, br.2))

/-- Membership of a character in a class body with regex range semantics:
`a-b` spans the inclusive code-point range, a dash at the start or end is
literal. -/
def classHas : List Char → Char → Bool
  | a :: '-' :: b :: rest, c =>
      if rest.isEmpty && b == ']' then false
      else (decide (a ≤ c) && decide (c ≤ b)) || classHas rest c
  | a :: rest, c => a == c || classHas rest c
  | [], _ => false

theorem scanClass_shrinks (s body rest : List Char)
    (h : scanClass s = Option.some (body, rest)) : rest.length < s.length := by
  induction s generalizing body rest with
  | nil => simp [scanClass] at h
  | cons c cs ih =>
      by_cases hc : c = ']'
      · subst hc
        simp [scanClass] at h
        simp [← h.2]
      · simp [scanClass, hc] at h
        obtain ⟨b2, hs, _⟩ := h
        have := ih b2 rest hs
        simp
        omega

theorem classNeg_snd_le (s : List Char) : (classNeg s).2.length ≤ s.length := by
  unfold classNeg
  split <;> simp

theorem classPre_snd_le (s : List Char) : (classPre s).2.length ≤ s.length := by
  unfold classPre
  split <;> simp

theorem parseClass_shrinks (s : List Char) (neg : Bool) (body rest : List Char)
    (h : parseClass s = Option.some (neg, body, rest)) : rest.length ≤ s.length := by
  unfold parseClass at h
  rw [Option.map_eq_some'] at h
  obtain ⟨⟨b2, r2⟩, hs, he⟩ := h
  simp at he
  have h1 := scanClass_shrinks _ b2 r2 hs
  have h2 := classPre_snd_le (classNeg s).2
  have h3 := classNeg_snd_le s
  have : rest = r2 := he.2.2.symm
  subst this
  omega

/-- Fuel-driven tokenizer for glob patterns, mirroring
`fnmatch.translate`; the fuel is an upper bound on the pattern length so
the recursion is structural and the function evaluates by `rfl`. -/
def tokenizeAux : Nat → List Char → List GlobTok
  | 0, _ => []
  | _ + 1, [] => []
  | fuel + 1, c :: ps =>
      if c == '*' then GlobTok.star :: tokenizeAux fuel ps
      else if c == '?' then GlobTok.anyChar :: tokenizeAux fuel ps
      else if c == '[' then
        match parseClass ps with
        | Option.some (neg, body, rest) => GlobTok.cls neg body :: tokenizeAux fuel rest
        | Option.none => GlobTok.lit '[' :: tokenizeAux fuel ps
      else GlobTok.lit c :: tokenizeAux fuel ps

/-- Compile a glob pattern to tokens. -/
def tokenize (s : List Char) : List GlobTok :=
  tokenizeAux s.length s

/-- Match a token list against a character list, anchored at both ends:
`star` matches any suffix split, classes and literals one character. -/
def tokMatch : List GlobTok → List Char → Bool
  | [], s => s.isEmpty
  | GlobTok.star :: ts, s => s.tails.any (fun t => tokMatch ts t)
  | GlobTok.anyChar :: ts, s =>
      match s with
      | [] => false
      | _ :: cs => tokMatch ts cs
  | GlobTok.cls neg body :: ts, s =>
      match s with
      | [] => false
      | c :: cs => (classHas body c != neg) && tokMatch ts cs
  | GlobTok.lit c :: ts, s =>
      match s with
      | [] => false
      | d :: cs => (c == d) && tokMatch ts cs

/-- Python `fnmatch.fnmatch(name, pat)` on POSIX (`normcase` is the
identity there, so matching is case-sensitive). -/
def fnmatch (name pat : String) : Bool :=
  tokMatch (tokenize pat.toList) name.toList

example : fnmatch "logs/app.log" "*.log" = true := by decide
example : fnmatch "logs/readme.txt" "*.log" = false := by decide
example : fnmatch "x.tar.gz" "*.gz" = true := by decide
example : fnmatch "abc" "a?c" = true := by decide
example : fnmatch "abc" "a[bx]c" = true := by decide
example : fnmatch "adc" "a[bx]c" = false := by decide
example : fnmatch "adc" "a[!bx]c" = true := by decide

/- ## Streams and the per-line JSON encoder (process_stream) -/

/-- Terminal outcome of reading and encoding a stream: success, a
`UnicodeDecodeError` raised by `json.dumps`, or any other exception. -/
inductive StreamErr
  | noErr
  | decodeErr
  | otherErr
deriving DecidableEq, Repr

/-- A readable line stream: the lines that are read and encoded before
the terminal outcome.  Lines after an error are never observed. -/
structure ByteStream where
  lines : List String
  err : StreamErr
deriving DecidableEq, Repr

/-- Body of the loop in `process_stream`: mutate the shared dict, print
one record per line, and return the printed records with the final dict
state. -/
def emitLines : List String → Fields → List Fields × Fields
  | [], m => ([], m)
  | l :: ls, m =>
      let m2 := setField m "message" l
      let r := emitLines ls m2
      (m2 :: r.1, r.2)

/-- Embedding of `process_stream` (src/shipper.py lines 216-219): for
each line of the stream, set the `message` field of the shared dict and
print it as one JSON record; a terminal stream error propagates to the
caller after the already-printed records. -/
def process_stream (stream : ByteStream) (message : Fields) :
    List Fields × Fields × StreamErr :=
  let r := emitLines stream.lines message
  (r.1, r.2, stream.err)

/- ## FileOpener (process_file / process_files) -/

/-- Classification outcome of a path in `process_file`. -/
inductive FileClass
  | skipArchive
  | gzipFile
  | bz2File
  | plainFile
deriving DecidableEq, Repr

/-- Suffix dispatch of `process_file` (src/shipper.py lines 123-135):
archive suffixes are compared case-insensitively against the lowercased
path, the compressed-file checks use `fnmatch` (case-sensitive on
POSIX). -/
def classifyPath (path : String) : FileClass :=
  if pyEndsWith (pyLower path) ".tar" || pyEndsWith (pyLower path) ".tgz" ||
     pyEndsWith (pyLower path) ".tar.gz" || pyEndsWith (pyLower path) ".tar.bz2" ||
     pyEndsWith (pyLower path) ".zip" then FileClass.skipArchive
  else if fnmatch path "*.gz" then FileClass.gzipFile
  else if fnmatch path "*.bz2" then FileClass.bz2File
  else FileClass.plainFile

/-- Content stored at a path, tagged with its actual format; the payload
of a compressed entry is its decompressed line stream. -/
inductive FsEntry
  | plainText (s : ByteStream)
  | gzipped (s : ByteStream)
  | bzipped (s : ByteStream)
deriving DecidableEq, Repr

/-- The filesystem oracle: `Option.none` means opening the path raises
`EnvironmentError` (missing file, permission denied, not a file...). -/
abbrev FileSystem := String → Option FsEntry

/-- Diagnostic messages sent to the logging stream, never to stdout. -/
inductive Diag
  | skippingArchive (path : String)
  | processingGzip (path : String)
  | processingBzip2 (path : String)
  | processingRegular (path : String)
  | processingTar (path : String)
  | processingZip (path : String)
  | openError (path : String)
  | decodeError
  | genericError
  | unableToOpenArchive (path : String)
  | topError
deriving DecidableEq, Repr

/-- Diagnostics produced by the exception handlers of `process_file`
when `process_stream` ends with an error. -/
def streamDiag : StreamErr → List Diag
  | StreamErr.noErr => []
  | StreamErr.decodeErr => [Diag.decodeError]
  | StreamErr.otherErr => [Diag.genericError]

/-- Embedding of `process_file` (src/shipper.py lines 118-152): classify
the path by suffix, skip archives, open with the matching decompressor,
feed the stream to `process_stream`, and swallow every exception into a
diagnostic so the caller always continues.  Opening a path whose stored
format disagrees with its suffix classification fails when the
decompressor reads it; that surfaces as a generic reported error. -/
def process_file (fs : FileSystem) (path : String) (message : Fields) :
    List Fields × Fields × List Diag :=
  match classifyPath path with
  | FileClass.skipArchive => ([], message, [Diag.skippingArchive path])
  | FileClass.gzipFile =>
      match fs path with
      | Option.none => ([], message, [Diag.openError path])
      | Option.some (FsEntry.gzipped s) =>
          let r := process_stream s message
          (r.1, r.2.1, Diag.processingGzip path :: streamDiag r.2.2)
      | Option.some _ => ([], message, [Diag.processingGzip path, Diag.genericError])
  | FileClass.bz2File =>
      match fs path with
      | Option.none => ([], message, [Diag.openError path])
      | Option.some (FsEntry.bzipped s) =>
          let r := process_stream s message
          (r.1, r.2.1, Diag.processingBzip2 path :: streamDiag r.2.2)
      | Option.some _ => ([], message, [Diag.processingBzip2 path, Diag.genericError])
  | FileClass.plainFile =>
      match fs path with
      | Option.none => ([], message, [Diag.openError path])
      | Option.some (FsEntry.plainText s) =>
          let r := process_stream s message
          (r.1, r.2.1, Diag.processingRegular path :: streamDiag r.2.2)
      | Option.some _ => ([], message, [Diag.processingRegular path, Diag.genericError])

/-- Embedding of `process_files` (src/shipper.py lines 114-115): process
each path in order; `process_file` never raises, so every path is
visited. -/
def process_files (fs : FileSystem) (paths : List String) (message : Fields) :
    List Fields × Fields × List Diag :=
  match paths with
  | [] => ([], message, [])
  | p :: ps =>
      let r := process_file fs p message
      let q := process_files fs ps r.2.1
      (r.1 ++ q.1, q.2.1, r.2.2 ++ q.2.2)

/-- Embedding of `find_files` (src/shipper.py lines 106-111) over an
abstract `os.walk` enumeration of (directory, basename) pairs: keep the
basenames that match the pattern and join them to their directory. -/
def find_files (walkEntries : List (String × String)) (pat : String) : List String :=
  (walkEntries.filter (fun rb => fnmatch rb.2 pat)).map
    (fun rb => rb.1 ++ "/" ++ rb.2)

/- ## ArchiveExtractor (process_archive / process_tar / process_zip) -/

/-- A tar archive member as seen by `getmembers`: its stored full path,
whether it is a regular file, and its content stream. -/
structure TarMember where
  name : String
  isFile : Bool
  stream : ByteStream
deriving DecidableEq, Repr

/-- A zip archive member as seen by `infolist`: its stored full path
(directories carry a trailing slash) and its content stream. -/
structure ZipMember where
  filename : String
  stream : ByteStream
deriving DecidableEq, Repr

/-- Member loop of `process_tar` (src/shipper.py lines 180-194): process
every regular-file member whose full stored path matches the pattern; a
`UnicodeDecodeError` inside a member is reported and iteration continues
with the next member, any other exception escapes to the surrounding
`except Exception` handler and ends the archive after the records already
printed. -/
def processTarMembers : List TarMember → String → Fields → List Fields × Fields × List Diag
  | [], _, m => ([], m, [])
  | i :: rest, pat, m =>
      if i.isFile && fnmatch i.name pat then
        let r := process_stream i.stream m
        match r.2.2 with
        | StreamErr.noErr =>
            let q := processTarMembers rest pat r.2.1
            (r.1 ++ q.1, q.2.1, q.2.2)
        | StreamErr.decodeErr =>
            let q := processTarMembers rest pat r.2.1
            (r.1 ++ q.1, q.2.1, Diag.decodeError :: q.2.2)
        | StreamErr.otherErr => (r.1, r.2.1, [Diag.genericError])
      else processTarMembers rest pat m

/-- Embedding of `process_tar`: `getmembers` reads the whole entry table
up front, so an enumeration error (`Except.error`) aborts the archive
with a report before any member is processed. -/
def process_tar (members : Except Unit (List TarMember)) (pat : String)
    (message : Fields) : List Fields × Fields × List Diag :=
  match members with
  | Except.error _ => ([], message, [Diag.genericError])
  | Except.ok ms => processTarMembers ms pat message

/-- Member loop of `process_zip` (src/shipper.py lines 197-213): same
error containment as the tar loop, with directory markers recognised by
their trailing slash instead of the regular-file flag. -/
def processZipMembers : List ZipMember → String → Fields → List Fields × Fields × List Diag
  | [], _, m => ([], m, [])
  | i :: rest, pat, m =>
      if !(pyEndsWith i.filename "/") && fnmatch i.filename pat then
        let r := process_stream i.stream m
        match r.2.2 with
        | StreamErr.noErr =>
            let q := processZipMembers rest pat r.2.1
            (r.1 ++ q.1, q.2.1, q.2.2)
        | StreamErr.decodeErr =>
            let q := processZipMembers rest pat r.2.1
            (r.1 ++ q.1, q.2.1, Diag.decodeError :: q.2.2)
        | StreamErr.otherErr => (r.1, r.2.1, [Diag.genericError])
      else processZipMembers rest pat m

/-- Embedding of `process_zip`: `infolist` returns the central directory
read when the archive was opened, so an enumeration error aborts the
archive with a report before any member is processed. -/
def process_zip (members : Except Unit (List ZipMember)) (pat : String)
    (message : Fields) : List Fields × Fields × List Diag :=
  match members with
  | Except.error _ => ([], message, [Diag.genericError])
  | Except.ok ms => processZipMembers ms pat message

/-- Outcome of the ranked format probes of `process_archive`
(src/shipper.py lines 155-177): `tarfile.open` is tried first, then
`zipfile.ZipFile`; if both raise, the archive is unusable. -/
inductive ArchiveData
  | tarArchive (members : Except Unit (List TarMember))
  | zipArchive (members : Except Unit (List ZipMember))
  | notAnArchive
deriving Inhabited

/-- Embedding of `process_archive`: dispatch on which probe succeeded and
run the matching member loop, or report that the archive cannot be
opened. -/
def process_archive (ar : ArchiveData) (path pat : String) (message : Fields) :
    List Fields × Fields × List Diag :=
  match ar with
  | ArchiveData.tarArchive members =>
      let r := process_tar members pat message
      (r.1, r.2.1, Diag.processingTar path :: r.2.2)
  | ArchiveData.zipArchive members =>
      let r := process_zip members pat message
      (r.1, r.2.1, Diag.processingZip path :: r.2.2)
  | ArchiveData.notAnArchive => ([], message, [Diag.unableToOpenArchive path])

/- ## Option validation (process_args) and the dispatcher (main) -/

/-- The four option values produced by `optparse`; `Option.none` means
the flag was not given on the command line. -/
structure Opts where
  f : Option String
  d : Option String
  a : Option String
  p : Option String
deriving DecidableEq, Repr

/-- Validation environment: the `os.path.isdir` and `os.path.isfile`
existence probes consulted while validating `-d` and `-a`. -/
structure Env where
  isdir : String → Bool
  isfile : String → Bool

/-- Embedding of the validation part of `process_args` (src/shipper.py
lines 64-102), preserving the order of the `parser.error` checks; the
returned value is the list of `key:value` pairs split from the
positional arguments.  `parser.error` exits the process with a non-zero
status, modelled as `Except.error` carrying the message. -/
def process_args (env : Env) (opts : Opts) (args : List String) :
    Except String (List (String × String)) :=
  if opts.f.isSome && opts.d.isSome then
    Except.error "-f and -d options can not be used together."
  else if opts.f.isSome && opts.a.isSome then
    Except.error "-f and -a options can not be used together."
  else if opts.f == Option.some "" then
    Except.error "-f option requires a value."
  else if opts.d.isSome && opts.a.isSome then
    Except.error "-d and -a options can not be used together."
  else if opts.d == Option.some "" then
    Except.error "-d option requires a value."
  else if opts.d.isSome && !env.isdir (opts.d.getD "" ++ "/.") then
    Except.error "not an accessible directory."
  else if opts.a == Option.some "" then
    Except.error "-a option requires a value."
  else if opts.a.isSome && !env.isfile (opts.a.getD "") then
    Except.error "not an accessible file."
  else if opts.p.isSome && !truthy opts.d && !truthy opts.a then
    Except.error "-p option only makes sense with -d or -a options."
  else if opts.p == Option.some "" then
    Except.error "-p option requires a value."
  else if !truthy opts.p && (truthy opts.d || truthy opts.a) then
    Except.error "A pattern must be given with the -p option when processing directories or archives."
  else
    match args.find? (fun a => !((splitColon1 a).length == 2)) with
    | Option.some a => Except.error ("Argument " ++ a ++ " is not a key:value pair.")
    | Option.none =>
        Except.ok (args.map (fun a =>
          ((splitColon1 a).headD "", ((splitColon1 a).drop 1).headD "")))

/-- The ambient OS behaviour `main` interacts with: the filesystem, the
`glob.iglob` expansion, the `os.walk` enumeration, standard input, the
archive probes and the validation environment. -/
structure World where
  fs : FileSystem
  glob : String → List String
  walk : String → List (String × String)
  stdin : ByteStream
  archive : String → ArchiveData
  env : Env

/-- Selected-mode body of `main` (src/shipper.py lines 228-239), run
after validation succeeded; returns the records printed to stdout and
the diagnostics.  The source guards FileMode with
`opts.f and opts.f is not '-'`; for length-1 argv strings CPython
identity agrees with equality, so the guard is `!(opts.f == some "-")`. -/
def runSelected (w : World) (opts : Opts) (message : Fields) :
    List Fields × List Diag :=
  if truthy opts.f && !(opts.f == Option.some "-") then
    let r := process_files w.fs (w.glob (opts.f.getD "")) message
    (r.1, r.2.2)
  else if truthy opts.d then
    let r := process_files w.fs
      (find_files (w.walk (opts.d.getD "")) (opts.p.getD "")) message
    (r.1, r.2.2)
  else if truthy opts.a then
    let r := process_archive (w.archive (opts.a.getD "")) (opts.a.getD "")
      (opts.p.getD "") message
    (r.1, r.2.2)
  else
    let r := process_stream w.stdin message
    (r.1, streamDiag r.2.2)

/-- Embedding of `main` (src/shipper.py lines 223-239): parse and
validate, build the field-set template with `dict(args)`, then dispatch.
A validation failure is `Sum.inr` (usage error, non-zero exit, nothing
processed); a normal run is `Sum.inl` with the emitted records and
diagnostics. -/
def mainRun (w : World) (opts : Opts) (args : List String) :
    (List Fields × List Diag) ⊕ String :=
  match process_args w.env opts args with
  | Except.error e => Sum.inr e
  | Except.ok fields => Sum.inl (runSelected w opts (dictOf fields))

/- ## Dict-assignment algebra -/

theorem map_setFields_eq_self (m : Fields) (k w : String)
    (h : m.any (fun p => p.1 == k) = false) :
    m.map (fun p => if p.1 == k then (k, w) else p) = m := by
  induction m with
  | nil => rfl
  | cons x xs ih =>
      simp only [List.any_cons, Bool.or_eq_false_iff] at h
      rw [List.map_cons, if_neg (by simp [h.1]), ih h.2]

theorem setField_setField (m : Fields) (k v w : String) :
    setField (setField m k v) k w = setField m k w := by
  by_cases h : m.any (fun p => p.1 == k) = true
  · have h2 : (m.map (fun p => if p.1 == k then (k, v) else p)).any
        (fun p => p.1 == k) = true := by
      rw [List.any_map, List.any_eq_true] at *
      obtain ⟨p, hp, hk⟩ := h
      refine ⟨p, hp, ?_⟩
      simp only [Function.comp]
      rw [if_pos hk]
      simp
    unfold setField
    rw [if_pos h, if_pos h2, if_pos h, List.map_map]
    apply List.map_congr_left
    intro p _
    by_cases hk : (p.1 == k) = true
    · simp only [Function.comp, if_pos hk]
      simp
    · simp only [Function.comp, if_neg hk]
  · rw [Bool.not_eq_true] at h
    have h2 : ((m ++ [(k, v)]).any (fun p => p.1 == k)) = true := by
      rw [List.any_append]
      simp
    have e1 : setField m k v = m ++ [(k, v)] := by
      unfold setField
      rw [if_neg (by simp [h])]
    have e2 : setField m k w = m ++ [(k, w)] := by
      unfold setField
      rw [if_neg (by simp [h])]
    rw [e1, e2]
    unfold setField
    rw [if_pos h2, List.map_append, map_setFields_eq_self m k w h]
    simp

/- ## Records printed by the stream encoder -/

theorem emitLines_records (ls : List String) (m d : Fields)
    (hd : ∀ L, setField d "message" L = setField m "message" L) :
    (emitLines ls d).1 = ls.map (fun L => setField m "message" L) := by
  induction ls generalizing d with
  | nil => rfl
  | cons l ls ih =>
      simp only [emitLines, List.map_cons]
      refine congrArg₂ _ (hd l) ?_
      apply ih
      intro L
      rw [hd l, setField_setField]

theorem emitLines_state (ls : List String) (m d : Fields)
    (hd : ∀ L, setField d "message" L = setField m "message" L) :
    ∀ L, setField (emitLines ls d).2 "message" L = setField m "message" L := by
  induction ls generalizing d with
  | nil => exact hd
  | cons l ls ih =>
      simp only [emitLines]
      apply ih
      intro L
      rw [hd l, setField_setField]

/-- C1: for every field-set template and every stream, `process_stream`
emits exactly one record per line read, in stream order, each record
being the template with its `message` field set to the exact line as
read (line terminator included, since lines are opaque strings);
`json.dumps` plus `print` writes each such record as one JSON object
followed by a newline, modelled here at record granularity. -/
theorem process_stream_one_record_per_line (s : ByteStream) (F : Fields) :
    (process_stream s F).1 = s.lines.map (fun L => setField F "message" L) :=
  emitLines_records s.lines F F (fun _ => rfl)

/- ## Glob patterns that are a star followed by literals test a suffix -/

theorem tokMatch_lits (l s : List Char) :
    tokMatch (l.map GlobTok.lit) s = true ↔ s = l := by
  induction l generalizing s with
  | nil =>
      cases s <;> simp [tokMatch, List.isEmpty]
  | cons c cs ih =>
      cases s with
      | nil => simp [tokMatch]
      | cons d ds =>
          simp only [List.map_cons, tokMatch, Bool.and_eq_true, beq_iff_eq, ih,
            List.cons.injEq]
          constructor
          · rintro ⟨h1, h2⟩
            exact ⟨h1.symm, h2⟩
          · rintro ⟨h1, h2⟩
            exact ⟨h1.symm, h2⟩

theorem bool_of_iff (a b : Bool) (h : a = true ↔ b = true) : a = b := by
  cases a <;> cases b <;> simp_all

theorem tokMatch_star_lits (l s : List Char) :
    tokMatch (GlobTok.star :: l.map GlobTok.lit) s = decide (l <:+ s) := by
  apply bool_of_iff
  show (s.tails.any fun t => tokMatch (l.map GlobTok.lit) t) = true ↔ _
  rw [List.any_eq_true]
  constructor
  · rintro ⟨t, ht, hm⟩
    rw [tokMatch_lits] at hm
    subst hm
    simp only [decide_eq_true_eq]
    exact (List.mem_tails _ _).mp ht
  · intro hs
    simp only [decide_eq_true_eq] at hs
    exact ⟨l, (List.mem_tails _ _).mpr hs, (tokMatch_lits _ _).mpr rfl⟩

theorem fnmatch_gz (s : String) : fnmatch s "*.gz" = pyEndsWith s ".gz" := by
  have ht : tokenize "*.gz".toList = GlobTok.star :: ".gz".toList.map GlobTok.lit := rfl
  unfold fnmatch pyEndsWith
  rw [ht, tokMatch_star_lits]

theorem fnmatch_bz2 (s : String) : fnmatch s "*.bz2" = pyEndsWith s ".bz2" := by
  have ht : tokenize "*.bz2".toList = GlobTok.star :: ".bz2".toList.map GlobTok.lit := rfl
  unfold fnmatch pyEndsWith
  rw [ht, tokMatch_star_lits]

/- ## C3: suffix classification in process_file -/

/-- Classification as the specification words it: the archive suffixes,
compared case-insensitively, are checked first and skipped; otherwise a
name ending in `.gz` is gzip, one ending in `.bz2` is bzip2, anything
else is plain text. -/
def classifySpec (path : String) : FileClass :=
  if pyEndsWith (pyLower path) ".tar" || pyEndsWith (pyLower path) ".tgz" ||
     pyEndsWith (pyLower path) ".tar.gz" || pyEndsWith (pyLower path) ".tar.bz2" ||
     pyEndsWith (pyLower path) ".zip" then FileClass.skipArchive
  else if pyEndsWith path ".gz" then FileClass.gzipFile
  else if pyEndsWith path ".bz2" then FileClass.bz2File
  else FileClass.plainFile

/-- C3: `process_file` classifies paths by name suffix exactly as the
specification orders it: archive suffixes (case-insensitive) are tried
first and such paths are skipped with a skipping-archive report and never
opened (in particular a path ending in `.tar.gz` is skipped, not treated
as gzip, since the archive test precedes the `.gz` test); otherwise a
`.gz` suffix selects the gzip decompressor, `.bz2` bzip2, and any other
name a plain-text open. -/
theorem classifyPath_matches_spec (path p2 : String) (fs : FileSystem) (F : Fields)
    (hskip : classifyPath p2 = FileClass.skipArchive) :
    classifyPath path = classifySpec path ∧
    classifyPath "x.tar.gz" = FileClass.skipArchive ∧
    process_file fs p2 F = ([], F, [Diag.skippingArchive p2]) := by
  refine ⟨?_, by decide, ?_⟩
  · unfold classifyPath classifySpec
    rw [fnmatch_gz, fnmatch_bz2]
  · unfold process_file
    rw [hskip]

/-- Witness for C3 at a concrete archive-suffixed path. -/
theorem classifyPath_matches_spec_witness :
    classifyPath "logs.ZIP" = FileClass.skipArchive ∧
    (classifyPath "a.log" = classifySpec "a.log" ∧
     classifyPath "x.tar.gz" = FileClass.skipArchive ∧
     process_file (fun _ => Option.none) "logs.ZIP" [("host", "web1")] =
       ([], [("host", "web1")], [Diag.skippingArchive "logs.ZIP"])) :=
  ⟨by decide,
   classifyPath_matches_spec "a.log" "logs.ZIP" (fun _ => Option.none)
     [("host", "web1")] (by decide)⟩

/- ## Records produced by the archive member loops -/

/-- Records that the tar member loop prints for a member list: one block
of records per regular-file member whose full stored path matches the
pattern, in archive order. -/
def tarOutput (ms : List TarMember) (pat : String) (F : Fields) : List Fields :=
  ((ms.filter (fun i => i.isFile && fnmatch i.name pat)).map
    (fun i => i.stream.lines.map (fun L => setField F "message" L))).flatten

/-- Records that the zip member loop prints: one block per member whose
stored path has no trailing slash and matches the pattern. -/
def zipOutput (zs : List ZipMember) (pat : String) (F : Fields) : List Fields :=
  ((zs.filter (fun i => !(pyEndsWith i.filename "/") && fnmatch i.filename pat)).map
    (fun i => i.stream.lines.map (fun L => setField F "message" L))).flatten

theorem processTarMembers_records (ms : List TarMember) (pat : String) (m d : Fields)
    (hd : ∀ L, setField d "message" L = setField m "message" L)
    (h : ∀ i ∈ ms, (i.isFile && fnmatch i.name pat) = true →
         i.stream.err ≠ StreamErr.otherErr) :
    (processTarMembers ms pat d).1 = tarOutput ms pat m := by
  induction ms generalizing d with
  | nil => rfl
  | cons i rest ih =>
      have hrest : ∀ j ∈ rest, (j.isFile && fnmatch j.name pat) = true →
          j.stream.err ≠ StreamErr.otherErr :=
        fun j hj => h j (List.mem_cons_of_mem i hj)
      by_cases hm : (i.isFile && fnmatch i.name pat) = true
      · have herr := h i (List.mem_cons_self i rest) hm
        have hd2 : ∀ L, setField (emitLines i.stream.lines d).2 "message" L =
            setField m "message" L := emitLines_state i.stream.lines m d hd
        have hrec : (emitLines i.stream.lines d).1 =
            i.stream.lines.map (fun L => setField m "message" L) :=
          emitLines_records i.stream.lines m d hd
        cases he : i.stream.err with
        | otherErr => exact absurd he herr
        | noErr =>
            simp only [processTarMembers, hm, if_true, process_stream, he]
            simp only [tarOutput, List.filter_cons, hm, if_true, List.map_cons,
              List.flatten]
            rw [hrec, ih _ hd2 hrest]
            rfl
        | decodeErr =>
            simp only [processTarMembers, hm, if_true, process_stream, he]
            simp only [tarOutput, List.filter_cons, hm, if_true, List.map_cons,
              List.flatten]
            rw [hrec, ih _ hd2 hrest]
            rfl
      · simp only [processTarMembers]
        rw [if_neg hm, ih d hd hrest]
        simp only [tarOutput, List.filter_cons]
        rw [if_neg hm]

theorem processTarMembers_abort (pre : List TarMember) (bad : TarMember)
    (post : List TarMember) (pat : String) (m d : Fields)
    (hd : ∀ L, setField d "message" L = setField m "message" L)
    (hpre : ∀ i ∈ pre, (i.isFile && fnmatch i.name pat) = true →
        i.stream.err ≠ StreamErr.otherErr)
    (hbm : (bad.isFile && fnmatch bad.name pat) = true)
    (hbe : bad.stream.err = StreamErr.otherErr) :
    (processTarMembers (pre ++ bad :: post) pat d).1 =
      tarOutput pre pat m ++ bad.stream.lines.map (fun L => setField m "message" L) := by
  induction pre generalizing d with
  | nil =>
      simp only [List.nil_append, processTarMembers]
      rw [if_pos hbm]
      simp only [process_stream, hbe]
      simp only [tarOutput, List.filter_nil, List.map_nil, List.flatten_nil,
        List.nil_append]
      exact emitLines_records bad.stream.lines m d hd
  | cons i rest ih =>
      have hrest : ∀ j ∈ rest, (j.isFile && fnmatch j.name pat) = true →
          j.stream.err ≠ StreamErr.otherErr :=
        fun j hj => hpre j (List.mem_cons_of_mem i hj)
      by_cases hm : (i.isFile && fnmatch i.name pat) = true
      · have herr := hpre i (List.mem_cons_self i rest) hm
        have hd2 : ∀ L, setField (emitLines i.stream.lines d).2 "message" L =
            setField m "message" L := emitLines_state i.stream.lines m d hd
        have hrec : (emitLines i.stream.lines d).1 =
            i.stream.lines.map (fun L => setField m "message" L) :=
          emitLines_records i.stream.lines m d hd
        cases he : i.stream.err with
        | otherErr => exact absurd he herr
        | noErr =>
            simp only [List.cons_append, processTarMembers]
            rw [if_pos hm]
            simp only [process_stream, he]
            simp only [tarOutput, List.filter_cons, hm, if_true, List.map_cons,
              List.flatten, List.append_eq]
            rw [hrec, ih _ hd2 hrest]
            simp only [tarOutput, List.append_assoc]
        | decodeErr =>
            simp only [List.cons_append, processTarMembers]
            rw [if_pos hm]
            simp only [process_stream, he]
            simp only [tarOutput, List.filter_cons, hm, if_true, List.map_cons,
              List.flatten, List.append_eq]
            rw [hrec, ih _ hd2 hrest]
            simp only [tarOutput, List.append_assoc]
      · simp only [List.cons_append, processTarMembers]
        rw [if_neg hm]
        simp only [List.append_eq]
        rw [ih d hd hrest]
        simp only [tarOutput, List.filter_cons]
        rw [if_neg hm]

/-- View a zip member as a tar member: the zip directory-marker test
(trailing slash) plays the role of the tar regular-file flag. -/
def zipAsTar (z : ZipMember) : TarMember :=
  ⟨z.filename, !(pyEndsWith z.filename "/"), z.stream⟩

theorem processZipMembers_eq (zs : List ZipMember) (pat : String) (m : Fields) :
    processZipMembers zs pat m = processTarMembers (zs.map zipAsTar) pat m := by
  induction zs generalizing m with
  | nil => rfl
  | cons z rest ih =>
      by_cases hm : (!(pyEndsWith z.filename "/") && fnmatch z.filename pat) = true
      · simp only [List.map_cons, processZipMembers, processTarMembers, zipAsTar]
        rw [if_pos hm, if_pos hm]
        cases he : z.stream.err with
        | noErr =>
            simp only [process_stream, he]
            rw [ih]
        | decodeErr =>
            simp only [process_stream, he]
            rw [ih]
        | otherErr =>
            simp only [process_stream, he]
      · simp only [List.map_cons, processZipMembers, processTarMembers, zipAsTar]
        rw [if_neg hm, if_neg hm]
        exact ih m

theorem zipOutput_eq (zs : List ZipMember) (pat : String) (F : Fields) :
    zipOutput zs pat F = tarOutput (zs.map zipAsTar) pat F := by
  unfold zipOutput tarOutput
  rw [List.filter_map, List.map_map]
  rfl

theorem tarOutput_append (xs ys : List TarMember) (pat : String) (F : Fields) :
    tarOutput (xs ++ ys) pat F = tarOutput xs pat F ++ tarOutput ys pat F := by
  unfold tarOutput
  rw [List.filter_append, List.map_append, List.flatten_append]

theorem tarOutput_cons_pos (i : TarMember) (ys : List TarMember) (pat : String)
    (F : Fields) (hm : (i.isFile && fnmatch i.name pat) = true) :
    tarOutput (i :: ys) pat F =
      i.stream.lines.map (fun L => setField F "message" L) ++ tarOutput ys pat F := by
  unfold tarOutput
  rw [List.filter_cons, if_pos hm, List.map_cons, List.flatten_cons]

/-- C4: for every archive whose type is determined, the members
processed are exactly the regular-file tar members (non-regular entries
are skipped) and the zip members whose stored names lack a trailing
slash, in both cases restricted to members whose full stored path (not
just the basename) matches the glob pattern; the emitted records are the
per-line records of exactly those members, in archive order. -/
theorem archive_member_selection (ms : List TarMember) (zs : List ZipMember)
    (pat : String) (F : Fields)
    (hm : ∀ i ∈ ms, (i.isFile && fnmatch i.name pat) = true →
        i.stream.err ≠ StreamErr.otherErr)
    (hz : ∀ i ∈ zs, (!(pyEndsWith i.filename "/") && fnmatch i.filename pat) = true →
        i.stream.err ≠ StreamErr.otherErr) :
    (process_tar (Except.ok ms) pat F).1 = tarOutput ms pat F ∧
    (process_zip (Except.ok zs) pat F).1 = zipOutput zs pat F := by
  constructor
  · exact processTarMembers_records ms pat F F (fun _ => rfl) hm
  · show (processZipMembers zs pat F).1 = _
    rw [processZipMembers_eq, zipOutput_eq]
    apply processTarMembers_records _ _ F F (fun _ => rfl)
    intro i hi
    rw [List.mem_map] at hi
    obtain ⟨z, hzin, rfl⟩ := hi
    exact hz z hzin

/-- Example tar members for the archive of the specification: a matching
log file and a non-matching text file. -/
def exTarApp : TarMember := ⟨"logs/app.log", true, ⟨["a1\n", "a2\n"], StreamErr.noErr⟩⟩

def exTarReadme : TarMember := ⟨"logs/readme.txt", true, ⟨["r\n"], StreamErr.noErr⟩⟩

def exZipDir : ZipMember := ⟨"logs/", ⟨[], StreamErr.noErr⟩⟩

def exZipApp : ZipMember := ⟨"logs/app.log", ⟨["za\n"], StreamErr.noErr⟩⟩

def exZipReadme : ZipMember := ⟨"logs/readme.txt", ⟨["zr\n"], StreamErr.noErr⟩⟩

/-- Host field template used by the concrete examples. -/
def exHost : Fields := [("host", "web1")]

/-- Witness for C4: the specification example, an archive holding
logs/app.log and logs/readme.txt filtered by *.log, emits records only
from app.log. -/
theorem archive_member_selection_witness :
    ((process_tar (Except.ok [exTarApp, exTarReadme]) "*.log" exHost).1 =
        tarOutput [exTarApp, exTarReadme] "*.log" exHost ∧
     (process_zip (Except.ok [exZipDir, exZipApp, exZipReadme]) "*.log" exHost).1 =
        zipOutput [exZipDir, exZipApp, exZipReadme] "*.log" exHost) ∧
    tarOutput [exTarApp, exTarReadme] "*.log" exHost =
      [[("host", "web1"), ("message", "a1\n")],
       [("host", "web1"), ("message", "a2\n")]] ∧
    zipOutput [exZipDir, exZipApp, exZipReadme] "*.log" exHost =
      [[("host", "web1"), ("message", "za\n")]] :=
  ⟨archive_member_selection [exTarApp, exTarReadme]
      [exZipDir, exZipApp, exZipReadme] "*.log" exHost (by decide) (by decide),
   by decide, by decide⟩

/-- C7: during archive processing a decoding error in one member aborts
that member only (its lines already printed stay, since the stream model
records exactly the pre-error lines) and iteration continues with the
following members, for tar and zip alike; an error enumerating the
archive entries aborts the whole archive with a report and, the entry
table being read up front, before any member record; and a non-decode
error raised while iterating aborts the archive while every record
already emitted stays emitted. -/
theorem archive_error_containment
    (pre post : List TarMember) (bad fat : TarMember)
    (zpre zpost : List ZipMember) (zbad : ZipMember)
    (pat : String) (F : Fields)
    (hok : ∀ i ∈ pre ++ post, (i.isFile && fnmatch i.name pat) = true →
        i.stream.err ≠ StreamErr.otherErr)
    (hbadD : bad.stream.err = StreamErr.decodeErr)
    (hbadM : (bad.isFile && fnmatch bad.name pat) = true)
    (hzok : ∀ i ∈ zpre ++ zpost,
        (!(pyEndsWith i.filename "/") && fnmatch i.filename pat) = true →
        i.stream.err ≠ StreamErr.otherErr)
    (hzbadD : zbad.stream.err = StreamErr.decodeErr)
    (hzbadM : (!(pyEndsWith zbad.filename "/") && fnmatch zbad.filename pat) = true)
    (hfatE : fat.stream.err = StreamErr.otherErr)
    (hfatM : (fat.isFile && fnmatch fat.name pat) = true) :
    ((process_tar (Except.ok (pre ++ bad :: post)) pat F).1 =
        tarOutput pre pat F ++
        bad.stream.lines.map (fun L => setField F "message" L) ++
        tarOutput post pat F) ∧
    ((process_zip (Except.ok (zpre ++ zbad :: zpost)) pat F).1 =
        zipOutput zpre pat F ++
        zbad.stream.lines.map (fun L => setField F "message" L) ++
        zipOutput zpost pat F) ∧
    process_tar (Except.error ()) pat F = ([], F, [Diag.genericError]) ∧
    process_zip (Except.error ()) pat F = ([], F, [Diag.genericError]) ∧
    ((process_tar (Except.ok (pre ++ fat :: post)) pat F).1 =
        tarOutput pre pat F ++
        fat.stream.lines.map (fun L => setField F "message" L)) := by
  have hall : ∀ i ∈ pre ++ bad :: post, (i.isFile && fnmatch i.name pat) = true →
      i.stream.err ≠ StreamErr.otherErr := by
    intro i hi hm
    rcases List.mem_append.mp hi with hl | hr
    · exact hok i (List.mem_append.mpr (Or.inl hl)) hm
    · rcases List.mem_cons.mp hr with he | ht
      · subst he
        rw [hbadD]
        intro hcon
        cases hcon
      · exact hok i (List.mem_append.mpr (Or.inr ht)) hm
  have hpre : ∀ i ∈ pre, (i.isFile && fnmatch i.name pat) = true →
      i.stream.err ≠ StreamErr.otherErr :=
    fun i hi => hok i (List.mem_append.mpr (Or.inl hi))
  refine ⟨?_, ?_, rfl, rfl, ?_⟩
  · have h1 := processTarMembers_records (pre ++ bad :: post) pat F F
      (fun _ => rfl) hall
    rw [show (process_tar (Except.ok (pre ++ bad :: post)) pat F).1 =
        (processTarMembers (pre ++ bad :: post) pat F).1 from rfl, h1,
      tarOutput_append, tarOutput_cons_pos bad post pat F hbadM,
      List.append_assoc]
  · have hzall : ∀ i ∈ (zpre ++ zbad :: zpost).map zipAsTar,
        (i.isFile && fnmatch i.name pat) = true →
        i.stream.err ≠ StreamErr.otherErr := by
      intro i hi
      rw [List.mem_map] at hi
      obtain ⟨z, hzin, rfl⟩ := hi
      intro hm
      rcases List.mem_append.mp hzin with hl | hr
      · exact hzok z (List.mem_append.mpr (Or.inl hl)) hm
      · rcases List.mem_cons.mp hr with he | ht
        · subst he
          rw [show (zipAsTar z).stream = z.stream from rfl, hzbadD]
          intro hcon
          cases hcon
        · exact hzok z (List.mem_append.mpr (Or.inr ht)) hm
    have h2 := processTarMembers_records ((zpre ++ zbad :: zpost).map zipAsTar)
      pat F F (fun _ => rfl) hzall
    rw [show (process_zip (Except.ok (zpre ++ zbad :: zpost)) pat F).1 =
        (processZipMembers (zpre ++ zbad :: zpost) pat F).1 from rfl,
      processZipMembers_eq, h2, List.map_append, List.map_cons,
      tarOutput_append, tarOutput_cons_pos _ _ pat F hzbadM,
      ← zipOutput_eq, ← zipOutput_eq, List.append_assoc]
    rfl
  · exact processTarMembers_abort pre fat post pat F F (fun _ => rfl)
      hpre hfatM hfatE

/-- Example members exercising the error containment paths. -/
def exTarBad : TarMember := ⟨"logs/bad.log", true, ⟨["b1\n"], StreamErr.decodeErr⟩⟩

def exTarFatal : TarMember := ⟨"logs/fat.log", true, ⟨["f1\n"], StreamErr.otherErr⟩⟩

def exZipBad : ZipMember := ⟨"logs/zbad.log", ⟨["zb1\n"], StreamErr.decodeErr⟩⟩

/-- Witness for C7 on concrete archives: the decode-failing member
contributes its pre-error line and its successors still run; the
enumeration failure yields no records; the fatal member ends the tar
archive after the records already printed. -/
theorem archive_error_containment_witness :
    ((process_tar (Except.ok ([exTarApp] ++ exTarBad :: [exTarReadme])) "*.log" exHost).1 =
        tarOutput [exTarApp] "*.log" exHost ++
        exTarBad.stream.lines.map (fun L => setField exHost "message" L) ++
        tarOutput [exTarReadme] "*.log" exHost) ∧
    ((process_zip (Except.ok ([exZipApp] ++ exZipBad :: [exZipReadme])) "*.log" exHost).1 =
        zipOutput [exZipApp] "*.log" exHost ++
        exZipBad.stream.lines.map (fun L => setField exHost "message" L) ++
        zipOutput [exZipReadme] "*.log" exHost) ∧
    process_tar (Except.error ()) "*.log" exHost = ([], exHost, [Diag.genericError]) ∧
    process_zip (Except.error ()) "*.log" exHost = ([], exHost, [Diag.genericError]) ∧
    ((process_tar (Except.ok ([exTarApp] ++ exTarFatal :: [exTarReadme])) "*.log" exHost).1 =
        tarOutput [exTarApp] "*.log" exHost ++
        exTarFatal.stream.lines.map (fun L => setField exHost "message" L)) :=
  archive_error_containment [exTarApp] [exTarReadme] exTarBad exTarFatal
    [exZipApp] [exZipReadme] exZipBad "*.log" exHost
    (by decide) (by decide) (by decide) (by decide) (by decide) (by decide)
    (by decide) (by decide)

/- ## Open failures in the FileOpener -/

theorem process_file_open_failure (fs : FileSystem) (path : String) (F : Fields)
    (hb : fs path = Option.none)
    (hc : classifyPath path ≠ FileClass.skipArchive) :
    process_file fs path F = ([], F, [Diag.openError path]) := by
  unfold process_file
  cases hcl : classifyPath path with
  | skipArchive => exact absurd hcl hc
  | gzipFile => rw [hb]
  | bz2File => rw [hb]
  | plainFile => rw [hb]

theorem process_files_append (fs : FileSystem) (xs ys : List String) (m : Fields) :
    process_files fs (xs ++ ys) m =
      ((process_files fs xs m).1 ++ (process_files fs ys (process_files fs xs m).2.1).1,
       (process_files fs ys (process_files fs xs m).2.1).2.1,
       (process_files fs xs m).2.2 ++ (process_files fs ys (process_files fs xs m).2.1).2.2) := by
  induction xs generalizing m with
  | nil => simp [process_files]
  | cons x xs ih =>
      simp only [List.cons_append, process_files, List.append_eq]
      rw [ih]
      simp [List.append_assoc]

/-- C8: when opening a path fails, `process_file` reports the OS error
with the filename and returns instead of raising, so a failing path in a
sequence contributes no records and processing continues with the
remaining paths, whose records are exactly those of the run without the
failing path.  The skip-archive hypothesis separates this case from
archive names, which are skipped before any open is attempted. -/
theorem open_failure_skips_file (fs : FileSystem) (pre post : List String)
    (bad : String) (F : Fields)
    (hb : fs bad = Option.none)
    (hc : classifyPath bad ≠ FileClass.skipArchive) :
    process_file fs bad F = ([], F, [Diag.openError bad]) ∧
    (process_files fs (pre ++ bad :: post) F).1 =
      (process_files fs (pre ++ post) F).1 ∧
    (process_files fs (pre ++ bad :: post) F).2.2 =
      (process_files fs pre F).2.2 ++ Diag.openError bad ::
        (process_files fs post (process_files fs pre F).2.1).2.2 := by
  refine ⟨process_file_open_failure fs bad F hb hc, ?_, ?_⟩
  · rw [process_files_append, process_files_append]
    show ((process_files fs pre F).1 ++
        (process_files fs (bad :: post) (process_files fs pre F).2.1).1) = _
    simp only [process_files]
    rw [process_file_open_failure fs bad _ hb hc]
    simp
  · rw [process_files_append]
    show ((process_files fs pre F).2.2 ++
        (process_files fs (bad :: post) (process_files fs pre F).2.1).2.2) = _
    simp only [process_files]
    rw [process_file_open_failure fs bad _ hb hc]
    simp

/-- Example filesystem: one plain log file and one gzip file holding the
same decompressed lines; other paths fail to open. -/
def exFs : FileSystem := fun p =>
  if p = "a.log" then Option.some (FsEntry.plainText ⟨["x\n", "y\n"], StreamErr.noErr⟩)
  else if p = "a.gz" then Option.some (FsEntry.gzipped ⟨["x\n", "y\n"], StreamErr.noErr⟩)
  else Option.none

/-- Witness for C8: the missing path contributes only its open-failure
report while its neighbours are processed unchanged. -/
theorem open_failure_skips_file_witness :
    process_file exFs "missing.log" exHost = ([], exHost, [Diag.openError "missing.log"]) ∧
    (process_files exFs (["a.log"] ++ "missing.log" :: ["a.gz"]) exHost).1 =
      (process_files exFs (["a.log"] ++ ["a.gz"]) exHost).1 ∧
    (process_files exFs (["a.log"] ++ "missing.log" :: ["a.gz"]) exHost).2.2 =
      (process_files exFs ["a.log"] exHost).2.2 ++ Diag.openError "missing.log" ::
        (process_files exFs ["a.gz"] (process_files exFs ["a.log"] exHost).2.1).2.2 :=
  open_failure_skips_file exFs ["a.log"] ["a.gz"] "missing.log" exHost
    (by decide) (by decide)

/-- C9: a gzip-compressed file and a plain file with the same
decompressed content produce the same records: both classifications feed
the identical decoded line stream to `process_stream` with the same
template, so the printed record sequences coincide. -/
theorem gzip_plain_same_records (fs1 fs2 : FileSystem) (p1 p2 : String)
    (s : ByteStream) (F : Fields)
    (h1 : classifyPath p1 = FileClass.gzipFile)
    (h2 : classifyPath p2 = FileClass.plainFile)
    (e1 : fs1 p1 = Option.some (FsEntry.gzipped s))
    (e2 : fs2 p2 = Option.some (FsEntry.plainText s)) :
    (process_file fs1 p1 F).1 = (process_file fs2 p2 F).1 := by
  unfold process_file
  rw [h1, h2, e1, e2]

/-- Witness for C9 on the example filesystem. -/
theorem gzip_plain_same_records_witness :
    (process_file exFs "a.gz" exHost).1 = (process_file exFs "a.log" exHost).1 :=
  gzip_plain_same_records exFs exFs "a.gz" "a.log"
    ⟨["x\n", "y\n"], StreamErr.noErr⟩ exHost
    (by decide) (by decide) (by decide) (by decide)

/- ## Validation claims -/

/-- A run outcome is failed when `parser.error` ended the process with a
usage message and a non-zero exit, before anything was processed. -/
def runFailed : (List Fields × List Diag) ⊕ String → Bool
  | Sum.inl _ => false
  | Sum.inr _ => true

theorem truthy_none : truthy Option.none = false := rfl

theorem truthy_some (s : String) : truthy (Option.some s) = !(s == "") := rfl

theorem mainRun_error (w : World) (opts : Opts) (args : List String)
    (h : ∃ e, process_args w.env opts args = Except.error e) :
    runFailed (mainRun w opts args) = true := by
  obtain ⟨e, he⟩ := h
  unfold mainRun
  rw [he]
  rfl

/-- C2: every invocation mixing -f with -d, -f with -a, or -d with -a,
giving -p without -d or -a, giving -d or -a without -p, or passing an
empty value for any of the four options, fails validation inside
`process_args` with a usage error and a non-zero exit; no stream is ever
opened and no record reaches standard output, the only filesystem
activity before the failure being the existence probes that are
themselves part of validation. -/
theorem invalid_selection_rejected (w : World) (opts : Opts) (args : List String)
    (h : ((opts.f.isSome && opts.d.isSome) ||
          (opts.f.isSome && opts.a.isSome) ||
          (opts.d.isSome && opts.a.isSome) ||
          (opts.p.isSome && !opts.d.isSome && !opts.a.isSome) ||
          ((opts.d.isSome || opts.a.isSome) && !opts.p.isSome) ||
          (opts.f == Option.some "") || (opts.d == Option.some "") ||
          (opts.a == Option.some "") || (opts.p == Option.some "")) = true) :
    runFailed (mainRun w opts args) = true := by
  apply mainRun_error
  unfold process_args
  by_cases h1 : (opts.f.isSome && opts.d.isSome) = true
  · exact ⟨_, by rw [if_pos h1]⟩
  rw [if_neg h1]
  by_cases h2 : (opts.f.isSome && opts.a.isSome) = true
  · exact ⟨_, by rw [if_pos h2]⟩
  rw [if_neg h2]
  by_cases h3 : (opts.f == Option.some "") = true
  · exact ⟨_, by rw [if_pos h3]⟩
  rw [if_neg h3]
  by_cases h4 : (opts.d.isSome && opts.a.isSome) = true
  · exact ⟨_, by rw [if_pos h4]⟩
  rw [if_neg h4]
  by_cases h5 : (opts.d == Option.some "") = true
  · exact ⟨_, by rw [if_pos h5]⟩
  rw [if_neg h5]
  by_cases h6 : (opts.d.isSome && !w.env.isdir (opts.d.getD "" ++ "/.")) = true
  · exact ⟨_, by rw [if_pos h6]⟩
  rw [if_neg h6]
  by_cases h7 : (opts.a == Option.some "") = true
  · exact ⟨_, by rw [if_pos h7]⟩
  rw [if_neg h7]
  by_cases h8 : (opts.a.isSome && !w.env.isfile (opts.a.getD "")) = true
  · exact ⟨_, by rw [if_pos h8]⟩
  rw [if_neg h8]
  by_cases h9 : (opts.p.isSome && !truthy opts.d && !truthy opts.a) = true
  · exact ⟨_, by rw [if_pos h9]⟩
  rw [if_neg h9]
  by_cases h10 : (opts.p == Option.some "") = true
  · exact ⟨_, by rw [if_pos h10]⟩
  rw [if_neg h10]
  by_cases h11 : (!truthy opts.p && (truthy opts.d || truthy opts.a)) = true
  · exact ⟨_, by rw [if_pos h11]⟩
  rw [if_neg h11]
  exfalso
  simp only [Bool.or_eq_true] at h
  rcases h with ((((((((hc | hc) | hc) | hc) | hc) | hc) | hc) | hc) | hc)
  · exact h1 hc
  · exact h2 hc
  · exact h4 hc
  · apply h9
    simp only [Bool.and_eq_true, Bool.not_eq_true'] at hc
    obtain ⟨⟨hp, hd⟩, ha⟩ := hc
    have hdn : opts.d = Option.none := Option.not_isSome_iff_eq_none.mp (by simp [hd])
    have han : opts.a = Option.none := Option.not_isSome_iff_eq_none.mp (by simp [ha])
    rw [hdn, han]
    simp [truthy, hp]
  · apply h11
    simp only [Bool.and_eq_true, Bool.not_eq_true', Bool.or_eq_true] at hc
    obtain ⟨hda, hp⟩ := hc
    have hpn : opts.p = Option.none := Option.not_isSome_iff_eq_none.mp (by simp [hp])
    rw [hpn]
    rcases hda with hd | ha
    · obtain ⟨dv, hdv⟩ := Option.isSome_iff_exists.mp hd
      rw [hdv]
      have hne : ¬ dv = "" := by
        intro he
        subst he
        rw [hdv] at h5
        simp at h5
      simp [truthy, hne]
    · obtain ⟨av, hav⟩ := Option.isSome_iff_exists.mp ha
      rw [hav]
      have hne : ¬ av = "" := by
        intro he
        subst he
        rw [hav] at h7
        simp at h7
      simp [truthy, hne]
  · exact h3 hc
  · exact h5 hc
  · exact h7 hc
  · exact h10 hc

/-- Witness for C2 at the concrete invocation -f a.txt -d x. -/
theorem invalid_selection_rejected_witness :
    (((Option.some "a.txt" : Option String).isSome &&
      (Option.some "x" : Option String).isSome) ||
     ((Option.some "a.txt" : Option String).isSome &&
      (Option.none : Option String).isSome) ||
     ((Option.some "x" : Option String).isSome &&
      (Option.none : Option String).isSome) ||
     ((Option.none : Option String).isSome &&
      !(Option.some "x" : Option String).isSome &&
      !(Option.none : Option String).isSome) ||
     (((Option.some "x" : Option String).isSome ||
       (Option.none : Option String).isSome) &&
      !(Option.none : Option String).isSome) ||
     ((Option.some "a.txt" : Option String) == Option.some "") ||
     ((Option.some "x" : Option String) == Option.some "") ||
     ((Option.none : Option String) == Option.some "") ||
     ((Option.none : Option String) == Option.some "")) = true ∧
    runFailed (mainRun
      { fs := fun _ => Option.none
        glob := fun _ => []
        walk := fun _ => []
        stdin := ⟨[], StreamErr.noErr⟩
        archive := fun _ => ArchiveData.notAnArchive
        env := ⟨fun _ => false, fun _ => false⟩ }
      ⟨Option.some "a.txt", Option.some "x", Option.none, Option.none⟩ []) = true :=
  ⟨by decide,
   invalid_selection_rejected
     { fs := fun _ => Option.none
       glob := fun _ => []
       walk := fun _ => []
       stdin := ⟨[], StreamErr.noErr⟩
       archive := fun _ => ArchiveData.notAnArchive
       env := ⟨fun _ => false, fun _ => false⟩ }
     ⟨Option.some "a.txt", Option.some "x", Option.none, Option.none⟩ [] (by decide)⟩

theorem splitFirst_no_sep (sep : Char) (l : List Char) (h : sep ∉ l) :
    splitFirst sep l = [l] := by
  induction l with
  | nil => rfl
  | cons c cs ih =>
      rw [List.mem_cons, not_or] at h
      unfold splitFirst
      rw [if_neg (by simp; exact fun hcs => h.1 hcs.symm), ih h.2]

theorem splitColon1_no_colon (s : String) (h : (':' : Char) ∉ s.toList) :
    splitColon1 s = [s] := by
  unfold splitColon1
  rw [splitFirst_no_sep ':' s.toList h]
  rfl

/-- C6: a positional argument without a colon splits into a single piece
instead of two, so validation fails with a usage error and nothing is
emitted, while arguments splitting into exactly two pieces pass the
check; the source writes the arity test as `len(a) is not 2`, an
identity comparison, which coincides with inequality because CPython
caches small integers, so the embedding uses plain disequality. -/
theorem colonless_arg_rejected :
    (∀ (w : World) (opts : Opts) (args : List String),
        (args.any (fun a => !((splitColon1 a).length == 2))) = true →
        runFailed (mainRun w opts args) = true) ∧
    (∀ s : String, (':' : Char) ∉ s.toList → (splitColon1 s).length = 1) ∧
    (∀ (env : Env) (args : List String),
        (∀ a ∈ args, (splitColon1 a).length = 2) →
        (process_args env ⟨Option.none, Option.none, Option.none, Option.none⟩
          args).isOk = true) := by
  refine ⟨?_, ?_, ?_⟩
  · intro w opts args hany
    apply mainRun_error
    unfold process_args
    rw [List.any_eq_true] at hany
    obtain ⟨a, ha, hpa⟩ := hany
    by_cases h1 : (opts.f.isSome && opts.d.isSome) = true
    · exact ⟨_, by rw [if_pos h1]⟩
    rw [if_neg h1]
    by_cases h2 : (opts.f.isSome && opts.a.isSome) = true
    · exact ⟨_, by rw [if_pos h2]⟩
    rw [if_neg h2]
    by_cases h3 : (opts.f == Option.some "") = true
    · exact ⟨_, by rw [if_pos h3]⟩
    rw [if_neg h3]
    by_cases h4 : (opts.d.isSome && opts.a.isSome) = true
    · exact ⟨_, by rw [if_pos h4]⟩
    rw [if_neg h4]
    by_cases h5 : (opts.d == Option.some "") = true
    · exact ⟨_, by rw [if_pos h5]⟩
    rw [if_neg h5]
    by_cases h6 : (opts.d.isSome && !w.env.isdir (opts.d.getD "" ++ "/.")) = true
    · exact ⟨_, by rw [if_pos h6]⟩
    rw [if_neg h6]
    by_cases h7 : (opts.a == Option.some "") = true
    · exact ⟨_, by rw [if_pos h7]⟩
    rw [if_neg h7]
    by_cases h8 : (opts.a.isSome && !w.env.isfile (opts.a.getD "")) = true
    · exact ⟨_, by rw [if_pos h8]⟩
    rw [if_neg h8]
    by_cases h9 : (opts.p.isSome && !truthy opts.d && !truthy opts.a) = true
    · exact ⟨_, by rw [if_pos h9]⟩
    rw [if_neg h9]
    by_cases h10 : (opts.p == Option.some "") = true
    · exact ⟨_, by rw [if_pos h10]⟩
    rw [if_neg h10]
    by_cases h11 : (!truthy opts.p && (truthy opts.d || truthy opts.a)) = true
    · exact ⟨_, by rw [if_pos h11]⟩
    rw [if_neg h11]
    cases hf : args.find? (fun a => !((splitColon1 a).length == 2)) with
    | none =>
        rw [List.find?_eq_none] at hf
        exact absurd hpa (hf a ha)
    | some b => exact ⟨_, rfl⟩
  · intro s h
    rw [splitColon1_no_colon s h]
    rfl
  · intro env args hall
    have hfind : args.find? (fun a => !((splitColon1 a).length == 2)) = Option.none := by
      rw [List.find?_eq_none]
      intro x hx
      simp [hall x hx]
    unfold process_args
    simp only [Option.isSome_none, Bool.false_and, Bool.and_false, if_false,
      Bool.false_eq_true, truthy_none, Bool.or_self, Bool.and_self]
    rw [if_neg (by simp), if_neg (by simp), if_neg (by simp), if_neg (by simp),
      hfind]
    rfl

/-- Witness for C6 at the concrete colonless argument badarg. -/
theorem colonless_arg_rejected_witness :
    ((["badarg"].any (fun a => !((splitColon1 a).length == 2))) = true ∧
     runFailed (mainRun
       { fs := fun _ => Option.none
         glob := fun _ => []
         walk := fun _ => []
         stdin := ⟨[], StreamErr.noErr⟩
         archive := fun _ => ArchiveData.notAnArchive
         env := ⟨fun _ => true, fun _ => true⟩ }
       ⟨Option.none, Option.none, Option.none, Option.none⟩ ["badarg"]) = true) ∧
    (splitColon1 "badarg").length = 1 ∧
    (∀ a ∈ ["host:web1"], (splitColon1 a).length = 2) ∧
    (process_args ⟨fun _ => true, fun _ => true⟩
      ⟨Option.none, Option.none, Option.none, Option.none⟩ ["host:web1"]).isOk = true :=
  ⟨⟨by decide,
    colonless_arg_rejected.1
      { fs := fun _ => Option.none
        glob := fun _ => []
        walk := fun _ => []
        stdin := ⟨[], StreamErr.noErr⟩
        archive := fun _ => ArchiveData.notAnArchive
        env := ⟨fun _ => true, fun _ => true⟩ }
      ⟨Option.none, Option.none, Option.none, Option.none⟩ ["badarg"] (by decide)⟩,
   colonless_arg_rejected.2.1 "badarg" (by decide),
   by decide,
   colonless_arg_rejected.2.2 ⟨fun _ => true, fun _ => true⟩ ["host:web1"] (by decide)⟩

/-- Example world for dispatcher witnesses: an empty glob, stdin holding
one line, no archives. -/
def exWorld : World where
  fs := exFs
  glob := fun _ => []
  walk := fun _ => []
  stdin := ⟨["s\n"], StreamErr.noErr⟩
  archive := fun _ => ArchiveData.notAnArchive
  env := ⟨fun _ => false, fun _ => false⟩

theorem process_args_f_ne_empty (w : World) (f : String) (args : List String)
    (fields : List (String × String))
    (h : process_args w.env ⟨Option.some f, Option.none, Option.none, Option.none⟩ args
         = Except.ok fields) : f ≠ "" := by
  intro he
  subst he
  simp [process_args] at h

/-- C5: in FileMode the single-character value - selects standard input
(the run behaves as StdinMode), any other value is expanded through the
glob oracle and every matched path is fed to `process_file` (the
FileOpener) and through it to `process_stream`; the glob pattern
language of `fnmatch` supports star, question mark and bracket classes.
The source guards this dispatch with `opts.f is not '-'`, an identity
comparison that CPython 2 makes equivalent to inequality by interning
length-1 argv strings. -/
theorem fileMode_dispatch (w : World) (f : String) (args : List String)
    (fields : List (String × String))
    (h : process_args w.env ⟨Option.some f, Option.none, Option.none, Option.none⟩ args
         = Except.ok fields) :
    (f = "-" → mainRun w ⟨Option.some f, Option.none, Option.none, Option.none⟩ args =
        Sum.inl ((process_stream w.stdin (dictOf fields)).1,
                 streamDiag (process_stream w.stdin (dictOf fields)).2.2)) ∧
    (f ≠ "-" → mainRun w ⟨Option.some f, Option.none, Option.none, Option.none⟩ args =
        Sum.inl ((process_files w.fs (w.glob f) (dictOf fields)).1,
                 (process_files w.fs (w.glob f) (dictOf fields)).2.2)) ∧
    fnmatch "abc" "a*" = true ∧ fnmatch "abc" "a?c" = true ∧
    fnmatch "abc" "a[bx]c" = true ∧ fnmatch "adc" "a[bx]c" = false := by
  have hne : f ≠ "" := process_args_f_ne_empty w f args fields h
  refine ⟨?_, ?_, by decide, by decide, by decide, by decide⟩
  · intro hdash
    subst hdash
    have hrs : runSelected w ⟨Option.some "-", Option.none, Option.none, Option.none⟩
        (dictOf fields) =
        ((process_stream w.stdin (dictOf fields)).1,
         streamDiag (process_stream w.stdin (dictOf fields)).2.2) := by
      unfold runSelected
      rw [if_neg (by decide), if_neg (by decide), if_neg (by decide)]
    unfold mainRun
    rw [h]
    exact congrArg Sum.inl hrs
  · intro hnd
    have hrs : runSelected w ⟨Option.some f, Option.none, Option.none, Option.none⟩
        (dictOf fields) =
        ((process_files w.fs (w.glob f) (dictOf fields)).1,
         (process_files w.fs (w.glob f) (dictOf fields)).2.2) := by
      unfold runSelected
      rw [if_pos (by simp [truthy, hne, hnd])]
      rfl
    unfold mainRun
    rw [h]
    exact congrArg Sum.inl hrs

/-- Witness for C5: with - as the file argument the run reads stdin. -/
theorem fileMode_dispatch_witness :
    (("-" : String) = "-" →
        mainRun exWorld ⟨Option.some "-", Option.none, Option.none, Option.none⟩ [] =
        Sum.inl ((process_stream exWorld.stdin (dictOf [])).1,
                 streamDiag (process_stream exWorld.stdin (dictOf [])).2.2)) ∧
    (("-" : String) ≠ "-" →
        mainRun exWorld ⟨Option.some "-", Option.none, Option.none, Option.none⟩ [] =
        Sum.inl ((process_files exWorld.fs (exWorld.glob "-") (dictOf [])).1,
                 (process_files exWorld.fs (exWorld.glob "-") (dictOf [])).2.2)) ∧
    fnmatch "abc" "a*" = true ∧ fnmatch "abc" "a?c" = true ∧
    fnmatch "abc" "a[bx]c" = true ∧ fnmatch "adc" "a[bx]c" = false :=
  fileMode_dispatch exWorld "-" [] [] (by rfl)

/-- C10: when the file argument is not - and its glob expansion matches
nothing, the run completes cleanly with no output records and no
diagnostics at all; in particular the open-failure report promised for
failing opens never appears, because `process_files` is handed an empty
path sequence and `process_file` is never invoked. -/
theorem missing_glob_silent (w : World) (f : String) (args : List String)
    (fields : List (String × String))
    (h : process_args w.env ⟨Option.some f, Option.none, Option.none, Option.none⟩ args
         = Except.ok fields)
    (hf : f ≠ "-") (hg : w.glob f = []) :
    mainRun w ⟨Option.some f, Option.none, Option.none, Option.none⟩ args =
      Sum.inl ([], []) := by
  have hne : f ≠ "" := process_args_f_ne_empty w f args fields h
  have hrs : runSelected w ⟨Option.some f, Option.none, Option.none, Option.none⟩
      (dictOf fields) = ([], []) := by
    unfold runSelected
    rw [if_pos (by simp [truthy, hne, hf])]
    show ((process_files w.fs (w.glob f) (dictOf fields)).1,
        (process_files w.fs (w.glob f) (dictOf fields)).2.2) = _
    rw [hg]
    rfl
  unfold mainRun
  rw [h]
  exact congrArg Sum.inl hrs

/-- Witness for C10 at a path that exists nowhere. -/
theorem missing_glob_silent_witness :
    mainRun exWorld ⟨Option.some "ghost.log", Option.none, Option.none, Option.none⟩ [] =
      Sum.inl ([], []) :=
  missing_glob_silent exWorld "ghost.log" [] [] (by rfl) (by decide) (by rfl)
